import Mathlib

/-!
Shallow embedding of `src/dcos_e2e/_common.py` (the subprocess execution and
output-streaming engine of the repository): `_safe_decode`, the `LineLogger`
class defined inside `run_subprocess`, the per-stream drain loop, the
result/error translation, and the exception-cleanup path.

Modelling conventions:
* A Python `bytes` value is a `List Nat` of byte values (`ByteStr`).
* A Python `str` value is a `List Nat` of Unicode code points (`Text`);
  `bytes.decode` is modelled by an executable UTF-8 decoder.
* The logging callbacks (`LOGGER.debug` / `LOGGER.warning` and the `logger`
  field of `LineLogger`) are modelled by accumulating, in order, the decoded
  lines passed to them.
* The operating system's chunked delivery of stream data is an explicit input:
  a list of chunks per stream (an `os.read` returns an empty chunk exactly at
  end-of-stream), and, for the trace model, an interleaved schedule of read
  outcomes as `select` would deliver them.
-/

namespace DcosE2E

/-- Python `bytes`: a sequence of byte values. -/
abbrev ByteStr := List Nat

/-- Python `str`: a sequence of Unicode code points. -/
abbrev Text := List Nat

/-- Strict UTF-8 decoding of a byte sequence to code points, per RFC 3629:
`none` exactly when the bytes are not well-formed UTF-8 (overlong encodings
and surrogate encodings rejected). Models Python
`bytes.decode(encoding='utf-8', errors='strict')`, with `none` standing for
the raised `UnicodeDecodeError`. -/
def utf8Decode? : List Nat → Option (List Nat)
  | [] => some []
  | b1 :: rest =>
    if b1 < 128 then
      (utf8Decode? rest).map (fun cps => b1 :: cps)
    else if 194 ≤ b1 ∧ b1 ≤ 223 then
      match rest with
      | b2 :: rest2 =>
        if 128 ≤ b2 ∧ b2 ≤ 191 then
          (utf8Decode? rest2).map (fun cps => ((b1 - 192) * 64 + (b2 - 128)) :: cps)
        else none
      | [] => none
    else if 224 ≤ b1 ∧ b1 ≤ 239 then
      match rest with
      | b2 :: b3 :: rest3 =>
        if (if b1 = 224 then 160 ≤ b2 ∧ b2 ≤ 191
            else if b1 = 237 then 128 ≤ b2 ∧ b2 ≤ 159
            else 128 ≤ b2 ∧ b2 ≤ 191) ∧ 128 ≤ b3 ∧ b3 ≤ 191 then
          (utf8Decode? rest3).map
            (fun cps => ((b1 - 224) * 4096 + (b2 - 128) * 64 + (b3 - 128)) :: cps)
        else none
      | _ => none
    else if 240 ≤ b1 ∧ b1 ≤ 244 then
      match rest with
      | b2 :: b3 :: b4 :: rest4 =>
        if (if b1 = 240 then 144 ≤ b2 ∧ b2 ≤ 191
            else if b1 = 244 then 128 ≤ b2 ∧ b2 ≤ 143
            else 128 ≤ b2 ∧ b2 ≤ 191) ∧ 128 ≤ b3 ∧ b3 ≤ 191 ∧ 128 ≤ b4 ∧ b4 ≤ 191 then
          (utf8Decode? rest4).map
            (fun cps =>
              ((b1 - 240) * 262144 + (b2 - 128) * 4096 + (b3 - 128) * 64 + (b4 - 128)) :: cps)
        else none
      | _ => none
    else none

/-- Lower-case hexadecimal digit character for a value below 16. -/
def hexDigit (n : Nat) : Nat :=
  if n < 10 then 48 + n else 87 + n

/-- Models Python `bytes.decode(encoding='ascii', errors='backslashreplace')`:
bytes below 128 decode as themselves, and every byte at or above 128 is
replaced by the four characters `\xHH` (backslash, `x`, two lower-case hex
digits). This decoding is total: it never fails on any byte. -/
def backslashReplace (bs : ByteStr) : Text :=
  (bs.map (fun b =>
    if b < 128 then [b]
    else [92, 120, hexDigit (b / 16), hexDigit (b % 16)])).flatten

/-- Embedding of `_safe_decode` (src/dcos_e2e/_common.py lines 13-26): try
strict UTF-8 decoding; on `UnicodeDecodeError` fall back to ASCII decoding
with `backslashreplace`. The fallback is total, so the whole function is. -/
def _safe_decode (output_bytes : ByteStr) : Text :=
  match utf8Decode? output_bytes with
  | some cps => cps
  | none => backslashReplace output_bytes

/-- Models Python `bytes.split(b'\n')`: the newline-separated segments, in
order; always non-empty, the last element being the trailing segment after
the final newline (the whole input when it holds no newline). -/
def splitNL : ByteStr → List ByteStr
  | [] => [[]]
  | b :: rest =>
    let s := splitNL rest
    if b = 10 then [] :: s
    else (b :: s.headD []) :: s.tail

/-- State of the `LineLogger` class defined inside `run_subprocess`
(src/dcos_e2e/_common.py lines 77-94): `buffer` is the `self.buffer` residue
of bytes since the last emitted line, and `logged` accumulates, in order, the
decoded lines passed to the `self.logger` callback. -/
structure LineLogger where
  buffer : ByteStr
  logged : List Text
deriving DecidableEq

/-- `LineLogger.log` (lines 85-91): append the data to the residue, split on
newlines, keep the segment after the last newline (`lines.pop()`) as the new
residue, and pass each complete segment through `_safe_decode` to the logger
callback. -/
def LineLogger.log (st : LineLogger) (data : ByteStr) : LineLogger :=
  let lines := splitNL (st.buffer ++ data)
  { buffer := lines.getLastD []
    logged := st.logged ++ lines.dropLast.map _safe_decode }

/-- `LineLogger.flush` (lines 92-94): if the residue is non-empty, decode it,
pass it to the logger callback as a final unterminated line, and clear it. -/
def LineLogger.flush (st : LineLogger) : LineLogger :=
  if st.buffer.length > 0 then
    { buffer := [], logged := st.logged ++ [_safe_decode st.buffer] }
  else st

/-- Per-stream state of the drain loop: `chunksRead` is the Python list
(`stdout_list` / `stderr_list`) the raw chunks are appended to, `logger` the
stream's `LineLogger`. -/
structure StreamState where
  chunksRead : List ByteStr
  logger : LineLogger
deriving DecidableEq

/-- Effect of one `os.read` outcome on one stream's state (lines 115-122):
a non-empty chunk is appended to the capture list and, when
`log_output_live`, fed to the stream's line logger; an empty chunk (the
end-of-stream case, handled in `streamEOF`) leaves the state unchanged here. -/
def readChunkStep (log_output_live : Bool) (st : StreamState) (buff : ByteStr) : StreamState :=
  if buff.length > 0 then
    { chunksRead := st.chunksRead ++ [buff]
      logger := if log_output_live then st.logger.log buff else st.logger }
  else st

/-- Effect of end-of-stream on one stream (lines 120-122): the fd is removed
from the active set and the stream's logger is flushed. -/
def streamEOF (st : StreamState) : StreamState :=
  { st with logger := st.logger.flush }

/-- Per-stream result of the whole drain loop: the stream's chunks, in
delivery order, followed by end-of-stream. The interleaving with the other
stream does not affect per-stream state, so it is elided here (the trace
model `drainLoop` below covers the interleaved loop itself). -/
def drainStream (log_output_live : Bool) (chunks : List ByteStr) : StreamState :=
  streamEOF (chunks.foldl (readChunkStep log_output_live) ⟨[], ⟨[], []⟩⟩)

/-- Observable behaviour of the child process: the chunk sequences its two
streams deliver (each chunk an `os.read` would return; non-empty until
end-of-stream) and its exit code. -/
structure ProcBehavior where
  stdoutChunks : List ByteStr
  stderrChunks : List ByteStr
  returncode : Int
deriving DecidableEq

/-- `subprocess.CompletedProcess` as returned by `run_subprocess`. -/
structure CompletedProcess where
  args : List String
  returncode : Int
  stdout : Option ByteStr
  stderr : Option ByteStr
deriving DecidableEq

/-- `subprocess.CalledProcessError` as raised by `run_subprocess` (lines
149-154): carries the exit code, the original argument vector, and the
captured output buffers. -/
structure CalledProcessError where
  returncode : Int
  cmd : List String
  output : Option ByteStr
  stderr : Option ByteStr
deriving DecidableEq

instance {ε α : Type} [DecidableEq ε] [DecidableEq α] : DecidableEq (Except ε α) :=
  fun a b =>
    match a, b with
    | Except.error e1, Except.error e2 =>
      if h : e1 = e2 then isTrue (by rw [h]) else isFalse (by simp [h])
    | Except.error _, Except.ok _ => isFalse (by simp)
    | Except.ok _, Except.error _ => isFalse (by simp)
    | Except.ok a1, Except.ok a2 =>
      if h : a1 = a2 then isTrue (by rw [h]) else isFalse (by simp [h])

/-- Outcome of a `run_subprocess` call: the returned value or raised
`CalledProcessError`, plus the decoded lines passed to `LOGGER.debug`
(stdout's logger) and `LOGGER.warning` (stderr's logger). -/
structure RunOutcome where
  result : Except CalledProcessError CompletedProcess
  debugLines : List Text
  warningLines : List Text
deriving DecidableEq

/-- Embedding of the non-exceptional paths of `run_subprocess`
(src/dcos_e2e/_common.py lines 28-156) as a function of the child's
behaviour: when `pipe_output`, both streams are drained (each read chunk
captured and, when `log_output_live`, line-logged), the capture lists are
joined with `b''.join`, and a non-zero exit code raises
`CalledProcessError`; when not `pipe_output`, nothing is read or logged and
both buffers are `None`. -/
def run_subprocess (args : List String) (log_output_live : Bool)
    (pipe_output : Bool) (proc : ProcBehavior) : RunOutcome :=
  if pipe_output then
    let outSt := drainStream log_output_live proc.stdoutChunks
    let errSt := drainStream log_output_live proc.stderrChunks
    let stdout := outSt.chunksRead.flatten
    let stderr := errSt.chunksRead.flatten
    if proc.returncode ≠ 0 then
      { result := Except.error ⟨proc.returncode, args, some stdout, some stderr⟩
        debugLines := outSt.logger.logged
        warningLines := errSt.logger.logged }
    else
      { result := Except.ok ⟨args, proc.returncode, some stdout, some stderr⟩
        debugLines := outSt.logger.logged
        warningLines := errSt.logger.logged }
  else
    if proc.returncode ≠ 0 then
      { result := Except.error ⟨proc.returncode, args, none, none⟩
        debugLines := []
        warningLines := [] }
    else
      { result := Except.ok ⟨args, proc.returncode, none, none⟩
        debugLines := []
        warningLines := [] }

/-- Python exceptions relevant to the cleanup path of `run_subprocess`:
the original fault raised while draining or waiting, OS-level errors a
cleanup step may raise, and `subprocess.TimeoutExpired` from `wait(1)`. -/
inductive PyExc where
  | readError : Nat → PyExc
  | oSError : Nat → PyExc
  | timeoutExpired : PyExc
deriving DecidableEq

/-- Process-management calls made by the `except` block. -/
inductive CleanupAction where
  | terminate : CleanupAction
  | wait : Nat → CleanupAction
  | kill : CleanupAction
deriving DecidableEq

/-- Embedding of the `except Exception:` cleanup block of `run_subprocess`
(lines 136-147), parametrised by the outcome of each external call:
`terminateErr` is `some e` when `process.terminate()` raises `e`;
`waitOutcome` is `none` when `process.wait(1)` returns and `some e` when it
raises `e`; `killErr` is `some e` when `process.kill()` raises `e`. Returns
the sequence of process-management calls performed and the exception that
propagates to the caller. Per Python semantics, an exception raised inside
the `except` block propagates in place of the original one (which survives
only as implicit context); only `TimeoutExpired` from the bounded wait is
caught, triggering `kill()`, after which the bare `raise` re-raises the
original fault. -/
def cleanupAndReraise (orig : PyExc) (terminateErr : Option PyExc)
    (waitOutcome : Option PyExc) (killErr : Option PyExc) :
    List CleanupAction × PyExc :=
  match terminateErr with
  | some e => ([CleanupAction.terminate], e)
  | none =>
    match waitOutcome with
    | none => ([CleanupAction.terminate, CleanupAction.wait 1], orig)
    | some e =>
      if e = PyExc.timeoutExpired then
        match killErr with
        | some e2 =>
            ([CleanupAction.terminate, CleanupAction.wait 1, CleanupAction.kill], e2)
        | none =>
            ([CleanupAction.terminate, CleanupAction.wait 1, CleanupAction.kill], orig)
      else ([CleanupAction.terminate, CleanupAction.wait 1], e)

/-- The two piped streams. -/
inductive StreamId where
  | out : StreamId
  | err : StreamId
deriving DecidableEq

/-- Events of the trace model of the drain loop and result translation. -/
inductive Ev where
  | read : StreamId → ByteStr → Ev
  | eofFlush : StreamId → Ev
  | wait : Ev
  | result : Ev
deriving DecidableEq

/-- Trace model of the `while fds:` loop (lines 108-122): `sched` is the
interleaved sequence of read outcomes `select` plus `os.read` deliver (an
empty chunk meaning end-of-stream of that stream), `fds` the active fd set.
Events for a stream already removed from the set are skipped (`select`
never reports a closed fd). Returns the events performed and whether the
loop exited (`false` when the schedule is exhausted with fds still active,
i.e. the loop would block forever). -/
def drainLoop : List (StreamId × ByteStr) → List StreamId → List Ev × Bool
  | _, [] => ([], true)
  | [], _ :: _ => ([], false)
  | (s, buff) :: rest, f :: fs =>
    if s ∈ f :: fs then
      if buff.length > 0 then
        let r := drainLoop rest (f :: fs)
        (Ev.read s buff :: r.1, r.2)
      else
        let r := drainLoop rest ((f :: fs).erase s)
        (Ev.eofFlush s :: r.1, r.2)
    else
      drainLoop rest (f :: fs)

/-- Trace of one piped `run_subprocess` execution: the drain-loop events,
then — only if the loop exited — the single `process.wait()` call (line 129)
followed by construction of the result or error (lines 131-156). -/
def runTrace (sched : List (StreamId × ByteStr)) : List Ev :=
  let r := drainLoop sched [StreamId.out, StreamId.err]
  if r.2 then r.1 ++ [Ev.wait, Ev.result] else r.1

/-! ### Lemmas about `splitNL` -/

lemma splitNL_ne_nil (bs : ByteStr) : splitNL bs ≠ [] := by
  cases bs with
  | nil => simp [splitNL]
  | cons b rest =>
    simp only [splitNL]
    split <;> simp

lemma splitNL_cons (b : Nat) (bs : ByteStr) :
    splitNL (b :: bs) =
      if b = 10 then [] :: splitNL bs
      else (b :: (splitNL bs).headD []) :: (splitNL bs).tail := rfl

lemma getLastD_irrel {α : Type} (x : α) (l : List α) (d d' : α) :
    (x :: l).getLastD d = (x :: l).getLastD d' := by
  rw [List.getLastD_cons, List.getLastD_cons]

lemma dropLast_append_cons {α : Type} (l1 : List α) (x : α) (l2 : List α) :
    (l1 ++ x :: l2).dropLast = l1 ++ (x :: l2).dropLast := by
  induction l1 with
  | nil => rfl
  | cons a l ih =>
    cases l with
    | nil => simp [List.dropLast_cons₂]
    | cons b l0 =>
      simp only [List.cons_append] at ih ⊢
      rw [List.dropLast_cons₂, ih]

lemma getLastD_append_cons {α : Type} (l1 : List α) (x : α) (l2 : List α) (d : α) :
    (l1 ++ x :: l2).getLastD d = (x :: l2).getLastD d := by
  induction l1 generalizing d with
  | nil => rfl
  | cons a l ih =>
    rw [List.cons_append, List.getLastD_cons, ih a]
    exact getLastD_irrel x l2 a d

lemma splitNL_append (x y : ByteStr) :
    splitNL (x ++ y) =
      (splitNL x).dropLast ++
        ((splitNL x).getLastD [] ++ (splitNL y).headD []) :: (splitNL y).tail := by
  induction x with
  | nil =>
    obtain ⟨h, t, hy⟩ := List.exists_cons_of_ne_nil (splitNL_ne_nil y)
    simp [splitNL, hy]
  | cons b x ih =>
    obtain ⟨s, t, hx⟩ := List.exists_cons_of_ne_nil (splitNL_ne_nil x)
    rw [List.cons_append, splitNL_cons, splitNL_cons]
    by_cases hb : b = 10
    · rw [if_pos hb, if_pos hb, ih, hx, List.dropLast_cons₂, List.getLastD_cons,
        List.getLastD_cons, List.getLastD_cons]
      simp
    · rw [if_neg hb, if_neg hb, ih, hx]
      cases t with
      | nil => simp
      | cons s2 t2 =>
        rw [List.dropLast_cons₂]
        simp only [List.cons_append, List.headD_cons, List.tail_cons]
        rw [List.dropLast_cons₂, List.getLastD_cons [] (b :: s) (s2 :: t2),
          List.getLastD_cons [] s (s2 :: t2), getLastD_irrel s2 t2 s (b :: s)]
        simp

lemma ten_not_mem_getLastD_splitNL (bs : ByteStr) :
    10 ∉ (splitNL bs).getLastD [] := by
  induction bs with
  | nil => simp [splitNL]
  | cons b rest ih =>
    obtain ⟨s, t, hr⟩ := List.exists_cons_of_ne_nil (splitNL_ne_nil rest)
    rw [hr] at ih
    rw [splitNL_cons]
    by_cases hb : b = 10
    · rw [if_pos hb, hr, List.getLastD_cons]
      exact ih
    · rw [if_neg hb, hr, List.headD_cons, List.tail_cons]
      cases t with
      | nil =>
        rw [List.getLastD_cons, List.getLastD_nil]
        rw [List.getLastD_cons, List.getLastD_nil] at ih
        intro hmem
        rcases List.mem_cons.mp hmem with h1 | h2
        · exact hb h1.symm
        · exact ih h2
      | cons s2 t2 =>
        rw [List.getLastD_cons, getLastD_irrel s2 t2 (b :: s) s]
        rw [List.getLastD_cons] at ih
        exact ih

lemma splitNL_of_ten_not_mem (bs : ByteStr) (h : 10 ∉ bs) : splitNL bs = [bs] := by
  induction bs with
  | nil => rfl
  | cons b rest ih =>
    have hb : b ≠ 10 := fun hc => h (hc ▸ List.mem_cons_self b rest)
    have hr : 10 ∉ rest := fun hc => h (List.mem_cons_of_mem b hc)
    simp [splitNL, hb, ih hr]

lemma length_splitNL (bs : ByteStr) : (splitNL bs).length = bs.count 10 + 1 := by
  induction bs with
  | nil => simp [splitNL]
  | cons b rest ih =>
    obtain ⟨s, t, hr⟩ := List.exists_cons_of_ne_nil (splitNL_ne_nil rest)
    by_cases hb : b = 10
    · subst hb
      simp [splitNL, ih, List.count_cons]
    · simp only [splitNL, if_neg hb, hr] at ih ⊢
      simp only [List.length_cons] at ih ⊢
      simp [List.count_cons, hb, ← ih]

/-! ### Lemmas about `LineLogger` -/

lemma ten_not_mem_log_buffer (st : LineLogger) (data : ByteStr) :
    10 ∉ (st.log data).buffer :=
  ten_not_mem_getLastD_splitNL (st.buffer ++ data)

lemma log_append (st : LineLogger) (a b : ByteStr) :
    st.log (a ++ b) = (st.log a).log b := by
  have hr1 : 10 ∉ (splitNL (st.buffer ++ a)).getLastD [] :=
    ten_not_mem_getLastD_splitNL (st.buffer ++ a)
  have h1 : splitNL ((splitNL (st.buffer ++ a)).getLastD [] ++ b) =
      ((splitNL (st.buffer ++ a)).getLastD [] ++ (splitNL b).headD []) :: (splitNL b).tail := by
    rw [splitNL_append, splitNL_of_ten_not_mem _ hr1]
    simp
  have h2 : splitNL (st.buffer ++ (a ++ b)) =
      (splitNL (st.buffer ++ a)).dropLast ++
        (((splitNL (st.buffer ++ a)).getLastD [] ++ (splitNL b).headD []) ::
          (splitNL b).tail) := by
    rw [← List.append_assoc, splitNL_append (st.buffer ++ a) b]
  simp only [LineLogger.log, h2, h1]
  rw [getLastD_append_cons, dropLast_append_cons]
  simp [List.append_assoc]

lemma log_nil (st : LineLogger) (h : 10 ∉ st.buffer) : st.log [] = st := by
  simp only [LineLogger.log, List.append_nil, splitNL_of_ten_not_mem _ h]
  simp

lemma foldl_log (chunks : List ByteStr) (st : LineLogger) (h : 10 ∉ st.buffer) :
    chunks.foldl LineLogger.log st = st.log chunks.flatten := by
  induction chunks generalizing st with
  | nil => simpa using (log_nil st h).symm
  | cons c cs ih =>
    rw [List.foldl_cons, List.flatten_cons, log_append,
      ih (st.log c) (ten_not_mem_log_buffer st c)]

lemma flush_buffer (st : LineLogger) : (st.flush).buffer = [] := by
  by_cases h : st.buffer.length > 0
  · simp [LineLogger.flush, h]
  · have : st.buffer = [] := List.length_eq_zero.mp (Nat.eq_zero_of_not_pos h)
    simp [LineLogger.flush, h, this]

lemma flush_of_buffer_nil (st : LineLogger) (h : st.buffer = []) : st.flush = st := by
  simp [LineLogger.flush, h]

lemma flush_flush (st : LineLogger) : st.flush.flush = st.flush :=
  flush_of_buffer_nil st.flush (flush_buffer st)

/-! ### Lemmas about the stream drain -/

lemma foldl_readChunkStep_flatten (live : Bool) (cs : List ByteStr) (st : StreamState) :
    (cs.foldl (readChunkStep live) st).chunksRead.flatten =
      st.chunksRead.flatten ++ cs.flatten := by
  induction cs generalizing st with
  | nil => simp
  | cons c cs ih =>
    rw [List.foldl_cons, List.flatten_cons, ih]
    by_cases h : c.length > 0
    · simp [readChunkStep, h, List.append_assoc]
    · have hc : c = [] := List.length_eq_zero.mp (Nat.eq_zero_of_not_pos h)
      simp [readChunkStep, h, hc]

lemma foldl_readChunkStep_chunksRead_live (live live' : Bool) (cs : List ByteStr)
    (st st' : StreamState) (h : st.chunksRead = st'.chunksRead) :
    (cs.foldl (readChunkStep live) st).chunksRead =
      (cs.foldl (readChunkStep live') st').chunksRead := by
  induction cs generalizing st st' with
  | nil => simpa using h
  | cons c cs ih =>
    rw [List.foldl_cons, List.foldl_cons]
    by_cases hc : c.length > 0
    · exact ih _ _ (by simp [readChunkStep, hc, h])
    · exact ih _ _ (by simp [readChunkStep, hc, h])

lemma foldl_readChunkStep_logger_dead (cs : List ByteStr) (st : StreamState) :
    (cs.foldl (readChunkStep false) st).logger = st.logger := by
  induction cs generalizing st with
  | nil => rfl
  | cons c cs ih =>
    rw [List.foldl_cons, ih]
    by_cases hc : c.length > 0 <;> simp [readChunkStep, hc]

lemma drainStream_flatten (live : Bool) (cs : List ByteStr) :
    (drainStream live cs).chunksRead.flatten = cs.flatten := by
  have h := foldl_readChunkStep_flatten live cs ⟨[], ⟨[], []⟩⟩
  simpa [drainStream, streamEOF] using h

lemma drainStream_chunksRead_live (live live' : Bool) (cs : List ByteStr) :
    (drainStream live cs).chunksRead = (drainStream live' cs).chunksRead := by
  simpa [drainStream, streamEOF] using
    foldl_readChunkStep_chunksRead_live live live' cs ⟨[], ⟨[], []⟩⟩ ⟨[], ⟨[], []⟩⟩ rfl

lemma drainStream_logger_dead (cs : List ByteStr) :
    (drainStream false cs).logger = LineLogger.flush ⟨[], []⟩ := by
  simp [drainStream, streamEOF, foldl_readChunkStep_logger_dead]

/-! ### Lemmas about the trace model -/

lemma drainLoop_no_wait_result (sched : List (StreamId × ByteStr)) :
    ∀ fds : List StreamId,
      Ev.wait ∉ (drainLoop sched fds).1 ∧ Ev.result ∉ (drainLoop sched fds).1 := by
  induction sched with
  | nil => intro fds; cases fds <;> simp [drainLoop]
  | cons p rest ih =>
    intro fds
    obtain ⟨s, buff⟩ := p
    cases fds with
    | nil => simp [drainLoop]
    | cons f fs =>
      by_cases hs : s ∈ f :: fs
      · by_cases hb : buff.length > 0
        · simpa [drainLoop, hs, hb] using ih (f :: fs)
        · simpa [drainLoop, hs, hb] using ih ((f :: fs).erase s)
      · simpa [drainLoop, hs] using ih (f :: fs)

lemma drainLoop_done_eofFlush (sched : List (StreamId × ByteStr)) :
    ∀ fds : List StreamId, (drainLoop sched fds).2 = true →
      ∀ s ∈ fds, Ev.eofFlush s ∈ (drainLoop sched fds).1 := by
  induction sched with
  | nil =>
    intro fds hdone s hs
    cases fds with
    | nil => simp at hs
    | cons f fs => simp [drainLoop] at hdone
  | cons p rest ih =>
    intro fds hdone s hs
    obtain ⟨s0, buff⟩ := p
    cases fds with
    | nil => simp at hs
    | cons f fs =>
      by_cases hs0 : s0 ∈ f :: fs
      · by_cases hb : buff.length > 0
        · simp only [drainLoop, if_pos hs0, if_pos hb] at hdone ⊢
          exact List.mem_cons_of_mem _ (ih (f :: fs) hdone s hs)
        · simp only [drainLoop, if_pos hs0, if_neg hb] at hdone ⊢
          by_cases hss : s = s0
          · exact hss ▸ List.mem_cons_self _ _
          · refine List.mem_cons_of_mem _ (ih ((f :: fs).erase s0) hdone s ?_)
            exact (List.mem_erase_of_ne hss).mpr hs
      · simp only [drainLoop, if_neg hs0] at hdone ⊢
        exact ih (f :: fs) hdone s hs

/-! ### Claim theorems -/

/-- C1: with capture enabled (`pipe_output = True`), `run_subprocess` raises
`CalledProcessError` if and only if the child's exit code is non-zero, the
failure carrying the original argument vector, that exit code, and both full
captured byte buffers exactly as read from the streams; on exit code zero it
returns a result with exit code 0 and the two captured buffers, with no
error. -/
theorem run_subprocess_capture_exit_translation (args : List String) (live : Bool)
    (proc : ProcBehavior) :
    (proc.returncode ≠ 0 →
      (run_subprocess args live true proc).result =
        Except.error ⟨proc.returncode, args, some proc.stdoutChunks.flatten,
          some proc.stderrChunks.flatten⟩) ∧
    (proc.returncode = 0 →
      (run_subprocess args live true proc).result =
        Except.ok ⟨args, 0, some proc.stdoutChunks.flatten,
          some proc.stderrChunks.flatten⟩) := by
  constructor
  · intro h
    simp [run_subprocess, h, drainStream_flatten]
  · intro h
    simp [run_subprocess, h, drainStream_flatten]

theorem run_subprocess_capture_exit_translation_witness :
    (run_subprocess ["sh"] false true ⟨[[104, 105]], [[101]], 2⟩).result =
      Except.error ⟨2, ["sh"], some [104, 105], some [101]⟩ ∧
    (run_subprocess ["sh"] false true ⟨[[104, 105]], [[101]], 0⟩).result =
      Except.ok ⟨["sh"], 0, some [104, 105], some [101]⟩ :=
  ⟨(run_subprocess_capture_exit_translation ["sh"] false ⟨[[104, 105]], [[101]], 2⟩).1
      (by decide),
   (run_subprocess_capture_exit_translation ["sh"] false ⟨[[104, 105]], [[101]], 0⟩).2 rfl⟩

/-- C2: for every byte sequence a stream delivers and every partition of it
into chunks, the final captured buffer for that stream (the `b''.join` of
all chunks appended during the drain loop) equals the original byte
sequence, in stream-local order, independent of the chunk boundaries and of
the live-log flag. -/
theorem captured_buffer_chunking_invariant (live : Bool) (bs : ByteStr)
    (chunks : List ByteStr) (h : chunks.flatten = bs) :
    (drainStream live chunks).chunksRead.flatten = bs := by
  rw [drainStream_flatten, h]

theorem captured_buffer_chunking_invariant_witness :
    [[104], [105, 10], [33]].flatten = [104, 105, 10, 33] ∧
    (drainStream true [[104], [105, 10], [33]]).chunksRead.flatten = [104, 105, 10, 33] :=
  ⟨rfl, captured_buffer_chunking_invariant true [104, 105, 10, 33]
    [[104], [105, 10], [33]] rfl⟩

/-- C3: a `LineLogger` emits a line only at a newline boundary of the
accumulated residue (the number of emitted lines equals the number of
newline bytes fed so far), and the final flush emits any non-empty residue
exactly once: feeding the bytes `"a\nb\nc"` under any chunking followed by
`flush` emits exactly `"a"`, `"b"`, `"c"` with no trailing empty line, and
feeding `"a\nbc"` emits `"a"` during `log` and `"bc"` only at flush. -/
theorem lineLogger_line_splitting (chunks : List ByteStr) :
    (chunks.flatten = [97, 10, 98, 10, 99] →
      ((chunks.foldl LineLogger.log ⟨[], []⟩).flush).logged = [[97], [98], [99]]) ∧
    (chunks.flatten = [97, 10, 98, 99] →
      (chunks.foldl LineLogger.log ⟨[], []⟩).logged = [[97]] ∧
      ((chunks.foldl LineLogger.log ⟨[], []⟩).flush).logged = [[97], [98, 99]]) ∧
    (chunks.foldl LineLogger.log ⟨[], []⟩).logged.length = chunks.flatten.count 10 := by
  have hfold := foldl_log chunks ⟨[], []⟩ (by simp)
  refine ⟨?_, ?_, ?_⟩
  · intro h
    rw [hfold, h]
    decide
  · intro h
    rw [hfold, h]
    exact ⟨by decide, by decide⟩
  · rw [hfold]
    simp only [LineLogger.log, List.nil_append, List.length_map, List.length_dropLast,
      length_splitNL]
    simp

theorem lineLogger_line_splitting_witness :
    (([[97, 10], [98], [10, 99]].foldl LineLogger.log ⟨[], []⟩).flush).logged
        = [[97], [98], [99]] ∧
    ([[97, 10, 98, 99]].foldl LineLogger.log ⟨[], []⟩).logged = [[97]] ∧
    (([[97, 10, 98, 99]].foldl LineLogger.log ⟨[], []⟩).flush).logged = [[97], [98, 99]] :=
  ⟨(lineLogger_line_splitting [[97, 10], [98], [10, 99]]).1 (by decide),
   (lineLogger_line_splitting [[97, 10, 98, 99]]).2.1 (by decide)⟩

/-- C9: after every `log` the retained residue contains no newline byte
(so every newline-terminated segment has been emitted by the time the call
returns), after every `flush` the residue is empty, and a second `flush`
with no intervening `log` is a no-op, in particular it emits nothing. -/
theorem lineLogger_residue_invariant (st : LineLogger) (data : ByteStr) :
    10 ∉ (st.log data).buffer ∧ (st.flush).buffer = [] ∧
    st.flush.flush = st.flush ∧ st.flush.flush.logged = st.flush.logged :=
  ⟨ten_not_mem_log_buffer st data, flush_buffer st, flush_flush st,
   by rw [flush_flush]⟩

/-- C4: when a fault interrupts draining or waiting and the cleanup
primitives themselves succeed, the cleanup path first requests graceful
termination, waits with the bounded grace period of 1 second (every wait it
performs has timeout at most 1), force-kills exactly when that wait timed
out, and finally re-raises the original exception, not a cleanup-internal
error. -/
theorem cleanup_escalation_reraises_original (orig : PyExc) (waitOutcome : Option PyExc)
    (hw : waitOutcome = none ∨ waitOutcome = some PyExc.timeoutExpired) :
    (cleanupAndReraise orig none waitOutcome none).1.head? = some CleanupAction.terminate ∧
    (∀ t, CleanupAction.wait t ∈ (cleanupAndReraise orig none waitOutcome none).1 → t ≤ 1) ∧
    (CleanupAction.kill ∈ (cleanupAndReraise orig none waitOutcome none).1 ↔
      waitOutcome = some PyExc.timeoutExpired) ∧
    (cleanupAndReraise orig none waitOutcome none).2 = orig := by
  rcases hw with h | h <;> subst h <;>
    refine ⟨rfl, ?_, by simp [cleanupAndReraise], rfl⟩ <;>
    · intro t ht
      simp [cleanupAndReraise] at ht
      omega

theorem cleanup_escalation_reraises_original_witness :
    (cleanupAndReraise (PyExc.readError 7) none (some PyExc.timeoutExpired) none).2 =
        PyExc.readError 7 ∧
    CleanupAction.kill ∈
      (cleanupAndReraise (PyExc.readError 7) none (some PyExc.timeoutExpired) none).1 :=
  ⟨(cleanup_escalation_reraises_original (PyExc.readError 7) (some PyExc.timeoutExpired)
      (Or.inr rfl)).2.2.2,
   ((cleanup_escalation_reraises_original (PyExc.readError 7) (some PyExc.timeoutExpired)
      (Or.inr rfl)).2.2.1).mpr rfl⟩

/-- C5 counterexample: if `process.terminate()` itself raises, the cleanup
error — not the original fault — propagates to the caller, so an error
during the cleanup steps can suppress the original exception (and nothing
is logged by the cleanup block). -/
theorem cleanup_error_suppression_counterexample :
    (cleanupAndReraise (PyExc.readError 0) (some (PyExc.oSError 1)) none none).2 =
        PyExc.oSError 1 ∧
    (cleanupAndReraise (PyExc.readError 0) (some (PyExc.oSError 1)) none none).2 ≠
        PyExc.readError 0 := by
  decide

/-- C5 amended: only `TimeoutExpired` from the bounded wait is handled (by
force-killing, after which the original exception is re-raised); an error
raised by `terminate()`, a non-timeout error from `wait(1)`, or an error
raised by `kill()` propagates to the caller in place of the original
exception. The original fault is propagated exactly on the cleanup paths in
which no cleanup step raises. -/
theorem cleanup_error_propagation_amended (orig : PyExc) :
    (∀ e waitOutcome killErr,
      (cleanupAndReraise orig (some e) waitOutcome killErr).2 = e) ∧
    (∀ e killErr, e ≠ PyExc.timeoutExpired →
      (cleanupAndReraise orig none (some e) killErr).2 = e) ∧
    (∀ e2, (cleanupAndReraise orig none (some PyExc.timeoutExpired) (some e2)).2 = e2) ∧
    (cleanupAndReraise orig none none none).2 = orig ∧
    (cleanupAndReraise orig none (some PyExc.timeoutExpired) none).2 = orig := by
  refine ⟨fun e w k => rfl, fun e k he => ?_, fun e2 => rfl, rfl, rfl⟩
  simp [cleanupAndReraise, he]

theorem cleanup_error_propagation_amended_witness :
    (cleanupAndReraise (PyExc.readError 0) none (some (PyExc.oSError 3)) none).2 =
      PyExc.oSError 3 ∧
    (cleanupAndReraise (PyExc.readError 0) none none none).2 = PyExc.readError 0 :=
  ⟨(cleanup_error_propagation_amended (PyExc.readError 0)).2.1 (PyExc.oSError 3) none
      (by decide),
   (cleanup_error_propagation_amended (PyExc.readError 0)).2.2.2.1⟩

/-- C6: `_safe_decode` is a total function to text (never raises): when
strict UTF-8 decoding succeeds it returns that decoding, and on a UTF-8
decode failure it falls back to the escaping ASCII decode that never fails;
in particular the line `b"\xff"` inside a chunk is forwarded to the logger
as the escaped text `\xff` while the capture buffer still holds the raw
bytes. -/
theorem safe_decode_total_fallback (bs : ByteStr) :
    (∀ cps, utf8Decode? bs = some cps → _safe_decode bs = cps) ∧
    (utf8Decode? bs = none → _safe_decode bs = backslashReplace bs) ∧
    (drainStream true [[255, 10]]).logger.logged = [[92, 120, 102, 102]] ∧
    (drainStream true [[255, 10]]).chunksRead.flatten = [255, 10] := by
  refine ⟨fun cps h => ?_, fun h => ?_, by decide, by decide⟩
  · simp [_safe_decode, h]
  · simp [_safe_decode, h]

theorem safe_decode_total_fallback_witness :
    _safe_decode [255] = backslashReplace [255] ∧ _safe_decode [104, 105] = [104, 105] :=
  ⟨(safe_decode_total_fallback [255]).2.1 (by decide),
   (safe_decode_total_fallback [104, 105]).1 [104, 105] (by decide)⟩

/-- C7: two runs of the same command reading the same stream bytes, one
with live-logging enabled and one with it disabled, produce an identical
returned result or raised failure — in particular identical captured stdout
and stderr bytes; the flag affects only what is forwarded to the logger. -/
theorem live_log_flag_no_effect_on_result (args : List String) (pipe : Bool)
    (proc : ProcBehavior) :
    (run_subprocess args true pipe proc).result =
      (run_subprocess args false pipe proc).result := by
  cases pipe with
  | false => rfl
  | true =>
    by_cases h : proc.returncode ≠ 0 <;>
      simp [run_subprocess, h, drainStream_chunksRead_live true false]

/-- C8: in every piped execution (any interleaving the readiness loop may
see), `wait()` happens exactly once, only after both streams have reported
end-of-stream (their final flushes appear earlier in the trace), and the
result is constructed only after `wait()`; if the drain loop never finishes,
neither `wait()` nor a result ever happens. -/
theorem wait_once_after_both_eof (sched : List (StreamId × ByteStr)) :
    (runTrace sched).count Ev.wait ≤ 1 ∧
    (Ev.wait ∈ runTrace sched →
      (runTrace sched).count Ev.wait = 1 ∧
      runTrace sched =
        (drainLoop sched [StreamId.out, StreamId.err]).1 ++ [Ev.wait, Ev.result] ∧
      Ev.eofFlush StreamId.out ∈ (drainLoop sched [StreamId.out, StreamId.err]).1 ∧
      Ev.eofFlush StreamId.err ∈ (drainLoop sched [StreamId.out, StreamId.err]).1 ∧
      Ev.wait ∉ (drainLoop sched [StreamId.out, StreamId.err]).1 ∧
      Ev.result ∉ (drainLoop sched [StreamId.out, StreamId.err]).1) ∧
    (Ev.result ∈ runTrace sched → Ev.wait ∈ runTrace sched) := by
  obtain ⟨hnw, hnr⟩ := drainLoop_no_wait_result sched [StreamId.out, StreamId.err]
  have hzero : (drainLoop sched [StreamId.out, StreamId.err]).1.count Ev.wait = 0 :=
    List.count_eq_zero_of_not_mem hnw
  cases hd : (drainLoop sched [StreamId.out, StreamId.err]).2 with
  | false =>
    have htr : runTrace sched = (drainLoop sched [StreamId.out, StreamId.err]).1 := by
      simp [runTrace, hd]
    rw [htr]
    exact ⟨by rw [hzero]; omega, fun hmem => absurd hmem hnw, fun hmem => absurd hmem hnr⟩
  | true =>
    have htr : runTrace sched =
        (drainLoop sched [StreamId.out, StreamId.err]).1 ++ [Ev.wait, Ev.result] := by
      simp [runTrace, hd]
    have hcount : (runTrace sched).count Ev.wait = 1 := by
      rw [htr, List.count_append, hzero]
      decide
    refine ⟨by rw [hcount], fun _ => ⟨hcount, htr, ?_, ?_, hnw, hnr⟩, fun _ => ?_⟩
    · exact drainLoop_done_eofFlush sched [StreamId.out, StreamId.err] hd StreamId.out
        (by simp)
    · exact drainLoop_done_eofFlush sched [StreamId.out, StreamId.err] hd StreamId.err
        (by simp)
    · rw [htr]
      exact List.mem_append_right _ (by simp)

theorem wait_once_after_both_eof_witness :
    Ev.wait ∈ runTrace [(StreamId.out, [120]), (StreamId.out, []), (StreamId.err, [])] ∧
    runTrace [(StreamId.out, [120]), (StreamId.out, []), (StreamId.err, [])] =
      (drainLoop [(StreamId.out, [120]), (StreamId.out, []), (StreamId.err, [])]
        [StreamId.out, StreamId.err]).1 ++ [Ev.wait, Ev.result] :=
  ⟨by decide,
   ((wait_once_after_both_eof
      [(StreamId.out, [120]), (StreamId.out, []), (StreamId.err, [])]).2.1
      (by decide)).2.1⟩

/-- C10: with capture disabled (`pipe_output = False`), nothing is read and
the logger is never invoked whatever the live-log flag (the run outcome does
not depend on the stream contents at all), the returned result's stdout and
stderr are `None`, and a non-zero exit still raises the failure, with `None`
in place of both captured buffers. -/
theorem run_subprocess_no_pipe_behaviour (args : List String) (live : Bool)
    (proc other : ProcBehavior) :
    (run_subprocess args live false proc).debugLines = [] ∧
    (run_subprocess args live false proc).warningLines = [] ∧
    (proc.returncode = 0 →
      (run_subprocess args live false proc).result =
        Except.ok ⟨args, proc.returncode, none, none⟩) ∧
    (proc.returncode ≠ 0 →
      (run_subprocess args live false proc).result =
        Except.error ⟨proc.returncode, args, none, none⟩) ∧
    (proc.returncode = other.returncode →
      run_subprocess args live false proc = run_subprocess args live false other) := by
  refine ⟨?_, ?_, fun h => ?_, fun h => ?_, fun h => ?_⟩
  · by_cases h : proc.returncode ≠ 0 <;> simp [run_subprocess, h]
  · by_cases h : proc.returncode ≠ 0 <;> simp [run_subprocess, h]
  · simp [run_subprocess, h]
  · simp [run_subprocess, h]
  · simp only [run_subprocess, Bool.false_eq_true, if_false, h]

theorem run_subprocess_no_pipe_behaviour_witness :
    (run_subprocess ["x"] true false ⟨[[1]], [[2]], 2⟩).result =
      Except.error ⟨2, ["x"], none, none⟩ ∧
    run_subprocess ["x"] true false ⟨[[1]], [[2]], 2⟩ =
      run_subprocess ["x"] true false ⟨[], [], 2⟩ :=
  ⟨(run_subprocess_no_pipe_behaviour ["x"] true ⟨[[1]], [[2]], 2⟩ ⟨[], [], 2⟩).2.2.2.1
      (by decide),
   (run_subprocess_no_pipe_behaviour ["x"] true ⟨[[1]], [[2]], 2⟩ ⟨[], [], 2⟩).2.2.2.2 rfl⟩

end DcosE2E
